import Mathlib

/-!
Verification of the forestry-simulator core against its specification.

The Python sources are shallowly embedded: Python floats and currency
amounts become `ℚ`, Python ints become `ℤ`, `random.random()` draws and
player menu selections become explicit oracle streams that are
universally quantified in every theorem.  `int(x)` truncation toward
zero is `pyInt`, `random.randint(a,b)` is `a + r % (b - a + 1)` for an
oracle-supplied natural `r` (which realises exactly the values in
`[a, b]`).
-/

namespace Forest

/-- Python `int(x)` truncation toward zero on a rational. -/
def pyInt (q : ℚ) : ℤ := if 0 ≤ q then ⌊q⌋ else ⌈q⌉

/-- Python `random.randint(a, b)` (inclusive both ends), driven by an
oracle natural `r`; for `a ≤ b` this ranges over exactly `[a, b]`. -/
def pyRandint (a b : ℤ) (r : ℕ) : ℤ := a + (r : ℤ) % (b - a + 1)

/-- Clamp a rational into `[lo, hi]`. -/
def clampQ (q lo hi : ℚ) : ℚ := max lo (min hi q)

/-- In-place update of the `i`-th element of a list (Python mutates the
object held at that position; out-of-range indices leave the list
unchanged, which never happens at the call sites). -/
def updateAt {α : Type} : List α → ℕ → (α → α) → List α
  | [], _, _ => []
  | a :: l, 0, g => g a :: l
  | a :: l, n + 1, g => a :: updateAt l n g

/-! ## Data model (`game_models.py`) -/

/-- `PermitStatus` enum.  `first_nations.py` assigns the raw string
`"delayed"` rather than the enum member; behaviourally that is the
`delayed` state (every later comparison with `PENDING`/`APPROVED` is
false), and it is embedded as `delayed`. -/
inductive PermitStatus
  | pending
  | approved
  | denied
  | delayed
  deriving DecidableEq

/-- `DisasterType` enum (only its presence matters for the claims). -/
inductive DisasterType
  | beetle_kill
  | wildfire
  | windstorm
  | drought
  | flood
  | none
  deriving DecidableEq

/-- `HarvestBlock` dataclass. -/
structure HarvestBlock where
  id : String
  volume_m3 : ℤ
  year_planned : ℤ
  permit_status : PermitStatus := .pending
  permit_submitted : ℤ := 0
  processing_time : ℤ := 0
  first_nations_agreement : Bool := false
  heritage_cleared : Bool := false
  old_growth_affected : Bool := false
  priority : ℤ := 1
  disaster_affected : Bool := false
  disaster_type : DisasterType := .none
  volume_loss_percent : ℚ := 0
  deriving DecidableEq

instance : Inhabited HarvestBlock :=
  ⟨{ id := "", volume_m3 := 0, year_planned := 0 }⟩

/-- `FirstNation` dataclass. -/
structure FirstNation where
  name : String
  relationship_level : ℚ := 1/2
  treaty_area : Bool := false
  active_negotiations : Bool := false
  agreement_signed : Bool := false
  consultation_cost : ℚ := 8000
  last_consultation_year : ℤ := 0
  consultation_frequency_required : ℤ := 2
  deriving DecidableEq

instance : Inhabited FirstNation := ⟨{ name := "" }⟩

/-- `FirstNation.needs_consultation`. -/
def FirstNation.needs_consultation (fn : FirstNation) (current_year : ℤ) : Bool :=
  decide (fn.consultation_frequency_required ≤ current_year - fn.last_consultation_year)

/-- `CertificationType` enum. -/
inductive CertificationType
  | FSC
  | PEFC
  | SFI
  deriving DecidableEq

/-- `Certification` dataclass. -/
structure Certification where
  cert_type : CertificationType
  obtained_year : ℤ := 0
  annual_cost : ℚ := 25000
  revenue_bonus : ℚ := 15/100
  reputation_bonus : ℚ := 1/10
  active : Bool := false
  deriving DecidableEq

/-- `GameState` dataclass (the delegate objects `fn_liaison`/`ceo` are
omitted: none of the embedded operations read or write them). -/
structure GameState where
  year : ℤ := 2025
  quarter : ℤ := 1
  budget : ℚ := 2500000
  reputation : ℚ := 1/2
  survival_bonus : ℚ := 0
  permit_bonus : ℚ := 0
  region : String := ""
  species : String := ""
  annual_allowable_cut : ℤ := 150000
  aac_decline_rate : ℚ := 3/100
  harvest_blocks : List HarvestBlock := []
  first_nations : List FirstNation := []
  certifications : List Certification := []
  mill_capacity : ℤ := 100000
  jobs_created : ℤ := 0
  biodiversity_score : ℚ := 1/2
  cumulative_disturbance : ℚ := 0
  disturbance_cap : ℚ := 50000
  glyphosate_banned : Bool := false
  old_growth_deferrals_expanded : Bool := false
  permit_backlog_days : ℤ := 120
  revenue_per_m3 : ℤ := 85
  operating_cost_per_m3 : ℤ := 45
  total_revenue : ℚ := 0
  total_costs : ℚ := 0
  years_operated : ℤ := 0
  consecutive_profitable_years : ℤ := 0
  social_license_maintained : Bool := true
  quarterly_profit : ℚ := 0
  deriving DecidableEq

/-- `GameState.get_active_certifications`. -/
def GameState.get_active_certifications (s : GameState) : List Certification :=
  s.certifications.filter (·.active)

/-- The random/choice sources: `unif k` stands for the `k`-th
`random.random()` draw, `nat k` drives `randint`/weighted choices, and
`sel k` is the `k`-th player menu selection.  All theorems quantify over
every oracle. -/
structure Oracle where
  unif : ℕ → ℚ
  nat : ℕ → ℕ
  sel : ℕ → ℕ

/-! ## Permit lifecycle (`permits.py`) -/

/-- The risk score computed for a block in `selective_permit_submission`
(both for display and for the low-risk filter). -/
def riskScore (b : HarvestBlock) : ℤ :=
  (if b.old_growth_affected then 3 else 0) +
  (if b.heritage_cleared then 0 else 2) +
  (if b.first_nations_agreement then 0 else 4) +
  (if b.disaster_affected then 1 else 0)

/-- A block is "complex" for the submission surcharge when it has no
First Nations agreement or affects old growth. -/
def complexBlock (b : HarvestBlock) : Bool :=
  !b.first_nations_agreement || b.old_growth_affected

/-- Positions (into `harvest_blocks`) of the blocks whose permit status
is pending: the `blocks_to_submit` list. -/
def pendingIdx (s : GameState) : List ℕ :=
  (List.range s.harvest_blocks.length).filter
    (fun i => decide ((s.harvest_blocks.getD i default).permit_status = .pending))

/-- The positions of `blocks_to_process` selected by the chosen strategy
(`none` encodes the early returns: skip, empty strategy result, or a
custom-selection parse failure). -/
def selectedIdx (s : GameState) (choice : ℕ) (parseOk : Bool) (idxs : List ℤ) :
    Option (List ℕ) :=
  let pend := pendingIdx s
  if choice = 0 then some pend
  else if choice = 1 then
    let hi := pend.filter (fun i => decide (3 ≤ (s.harvest_blocks.getD i default).priority))
    if hi = [] then none else some hi
  else if choice = 2 then
    let lo := pend.filter (fun i => decide (riskScore (s.harvest_blocks.getD i default) ≤ 2))
    if lo = [] then none else some lo
  else if choice = 3 then
    if parseOk then
      some ((idxs.filter (fun i => decide (0 ≤ i) && decide (i < (pend.length : ℤ)))).map
        (fun i => pend.getD i.toNat 0))
    else none
  else none

/-- Total submission cost: $5000 per application plus $10000 per complex
block. -/
def submissionCost (s : GameState) (sel : List ℕ) : ℚ :=
  (sel.length : ℚ) * 5000 +
  ((sel.filter (fun i => complexBlock (s.harvest_blocks.getD i default))).length : ℚ) * 10000

/-- The per-block mutation done on submission: records the submission
year and the computed processing time (backlog plus additive risk
penalties, a priority multiplier truncated by `int`, plus uniform noise
in `[-30, 60]`). -/
def submitUpdate (year backlog : ℤ) (noise : ℤ) (b : HarvestBlock) : HarvestBlock :=
  let base := backlog +
    (if b.old_growth_affected then 60 else 0) +
    (if b.heritage_cleared then 0 else 30) +
    (if b.first_nations_agreement then 0 else 90) +
    (if b.disaster_affected then 20 else 0)
  let base := if 3 ≤ b.priority then pyInt ((base : ℚ) * (8/10))
    else if b.priority = 1 then pyInt ((base : ℚ) * (12/10))
    else base
  { b with permit_submitted := year, processing_time := base + noise }

/-- Applies `submitUpdate` to each selected position in order, drawing
one `randint(-30, 60)` noise value per block. -/
def applySubmissions (o : Oracle) (year backlog : ℤ) :
    List ℕ → List HarvestBlock → ℕ → List HarvestBlock × ℕ
  | [], bs, k => (bs, k)
  | i :: rest, bs, k =>
      applySubmissions o year backlog rest
        (updateAt bs i (submitUpdate year backlog (pyRandint (-30) 60 (o.nat k)))) (k + 1)

/-- `selective_permit_submission`.  `choice` is the strategy menu
selection, `parseOk`/`idxs` the parsed custom selection, `confirm` the
confirmation selection (0 = Yes).  Aborts as a no-op when nothing is
selected, when the total cost exceeds the budget, or when not
confirmed. -/
def selective_permit_submission (o : Oracle) (s : GameState) (k : ℕ)
    (choice : ℕ) (parseOk : Bool) (idxs : List ℤ) (confirm : ℕ) : GameState :=
  if pendingIdx s = [] then s
  else
    match selectedIdx s choice parseOk idxs with
    | none => s
    | some sel =>
      if sel = [] then s
      else
        let cost := submissionCost s sel
        if s.budget < cost then s
        else if confirm = 0 then
          let bs := applySubmissions o s.year s.permit_backlog_days sel s.harvest_blocks k
          { s with budget := s.budget - cost, harvest_blocks := bs.1 }
        else s

/-- Day-equivalents elapsed since a block's submission:
`((yearsElapsed * 4) + (quarter - 1)) * 90`. -/
def daysElapsed (year quarter : ℤ) (b : HarvestBlock) : ℤ :=
  ((year - b.permit_submitted) * 4 + (quarter - 1)) * 90

/-- A block is due for a permit decision: pending, actually submitted,
and its elapsed day-equivalents have reached the processing time. -/
def permitDue (year quarter : ℤ) (b : HarvestBlock) : Prop :=
  b.permit_status = .pending ∧ 0 < b.permit_submitted ∧
    b.processing_time ≤ daysElapsed year quarter b

instance (year quarter : ℤ) (b : HarvestBlock) : Decidable (permitDue year quarter b) :=
  inferInstanceAs (Decidable (_ ∧ _ ∧ _))

/-- The approval chance computed in `process_permits` for one block:
`0.7 + permit_bonus + (reputation - 0.5)*0.3`, minus 0.4 for old growth
under expanded deferrals, minus 0.3 without a First Nations agreement,
minus 0.5 when cumulative disturbance exceeds the cap, plus 0.1 for
disaster salvage, plus `min(0.2, #activeCerts * 0.1)`. -/
def approvalChance (pb : ℚ) (ogde : Bool) (cd cap : ℚ) (nCert : ℕ) (rep : ℚ)
    (b : HarvestBlock) : ℚ :=
  let c := 7/10 + pb + (rep - 1/2) * (3/10)
  let c := if b.old_growth_affected && ogde then c - 4/10 else c
  let c := if b.first_nations_agreement then c else c - 3/10
  let c := if cap < cd then c - 5/10 else c
  let c := if b.disaster_affected then c + 1/10 else c
  c + min (2/10) ((nCert : ℚ) * (1/10))

/-- The decision loop of `process_permits`: walks the block list in
order, and for each due block draws one uniform roll; approval iff the
roll is below the approval chance, denial also costs 0.05 reputation
(read by later blocks in the same pass).  Returns the new block list,
the new reputation, and the next roll index. -/
def processPermitsAux (year quarter : ℤ) (pb : ℚ) (ogde : Bool) (cd cap : ℚ)
    (nCert : ℕ) (rand : ℕ → ℚ) :
    List HarvestBlock → ℚ → ℕ → List HarvestBlock × ℚ × ℕ
  | [], rep, k => ([], rep, k)
  | b :: bs, rep, k =>
    if permitDue year quarter b then
      if rand k < approvalChance pb ogde cd cap nCert rep b then
        let r := processPermitsAux year quarter pb ogde cd cap nCert rand bs rep (k + 1)
        ({ b with permit_status := .approved } :: r.1, r.2)
      else
        let r := processPermitsAux year quarter pb ogde cd cap nCert rand bs (rep - 5/100) (k + 1)
        ({ b with permit_status := .denied } :: r.1, r.2)
    else
      let r := processPermitsAux year quarter pb ogde cd cap nCert rand bs rep k
      (b :: r.1, r.2)

/-- `process_permits`: resolves every due submitted block. -/
def process_permits (s : GameState) (rand : ℕ → ℚ) : GameState :=
  let r := processPermitsAux s.year s.quarter s.permit_bonus
    s.old_growth_deferrals_expanded s.cumulative_disturbance s.disturbance_cap
    s.get_active_certifications.length rand s.harvest_blocks s.reputation 0
  { s with harvest_blocks := r.1, reputation := r.2.1 }

/-! ## First Nations consultation (`first_nations.py`) -/

/-- Update the nation at position `i` in place. -/
def updateFn (s : GameState) (i : ℕ) (g : FirstNation → FirstNation) : GameState :=
  { s with first_nations := updateAt s.first_nations i g }

/-- Read the nation at position `i`. -/
def getFn (s : GameState) (i : ℕ) : FirstNation :=
  s.first_nations.getD i default

/-- `_trigger_legal_challenge`: deducts a random legal cost in
`[75000, 200000]` unconditionally, then rolls the court outcome against
`0.3 + relationship*0.3 + reputation*0.2`.  A loss delays every
currently approved block, costs 0.3 reputation and 0.2 relationship. -/
def trigger_legal_challenge (o : Oracle) (s : GameState) (k : ℕ) (i : ℕ) :
    GameState × ℕ :=
  let legalCost : ℚ := ((pyRandint 75000 200000 (o.nat k) : ℤ) : ℚ)
  let s := { s with budget := s.budget - legalCost }
  let winChance := 3/10 + (getFn s i).relationship_level * (3/10) + s.reputation * (2/10)
  if o.unif (k + 1) < winChance then
    (updateFn s i (fun fn => { fn with relationship_level := fn.relationship_level + 1/10 }),
     k + 2)
  else
    let s := { s with
      harvest_blocks := s.harvest_blocks.map (fun b =>
        if b.permit_status = .approved then { b with permit_status := .delayed } else b),
      reputation := s.reputation - 3/10 }
    (updateFn s i (fun fn => { fn with relationship_level := fn.relationship_level - 2/10 }),
     k + 2)

/-- `_trigger_treaty_negotiations`: the treaty sub-negotiation with
three player outcomes (full ecosystem plan / compromise / rejection). -/
def trigger_treaty_negotiations (o : Oracle) (s : GameState) (k : ℕ) (i : ℕ) :
    GameState × ℕ :=
  let c := o.sel k
  if c = 0 then
    if 100000 ≤ s.budget then
      let s := { s with budget := s.budget - 100000,
                        disturbance_cap := ((pyInt (s.disturbance_cap * (8/10)) : ℤ) : ℚ),
                        reputation := s.reputation + 3/10 }
      (updateFn s i (fun fn => { fn with relationship_level := 8/10, agreement_signed := true }),
       k + 1)
    else
      (updateFn s i (fun fn => { fn with relationship_level := fn.relationship_level - 2/10 }),
       k + 1)
  else if c = 1 then
    if 50000 ≤ s.budget then
      let s := { s with budget := s.budget - 50000,
                        disturbance_cap := ((pyInt (s.disturbance_cap * (9/10)) : ℤ) : ℚ) }
      let s := updateFn s i (fun fn => { fn with relationship_level := fn.relationship_level + 1/10 })
      if o.unif (k + 1) < 6/10 then
        (updateFn s i (fun fn => { fn with agreement_signed := true }), k + 2)
      else
        trigger_legal_challenge o s (k + 2) i
    else
      (updateFn s i (fun fn => { fn with relationship_level := fn.relationship_level - 2/10 }),
       k + 1)
  else
    let s := updateFn s i (fun fn =>
      { fn with relationship_level := 1/10, agreement_signed := false })
    let s := { s with reputation := s.reputation - 4/10 }
    trigger_legal_challenge o s (k + 1) i

/-- One comprehensive-consultation loop iteration for nation `i`:
resets the consultation clock, +0.2 relationship, opens negotiations;
treaty nations over 70% of the disturbance cap lose 0.1 relationship
and enter treaty negotiations, everyone else signs. -/
def comprehensiveStep (o : Oracle) (p : GameState × ℕ) (i : ℕ) : GameState × ℕ :=
  let s := updateFn p.1 i (fun fn =>
    { fn with last_consultation_year := p.1.year,
              relationship_level := fn.relationship_level + 2/10,
              active_negotiations := true })
  if (getFn s i).treaty_area then
    if s.disturbance_cap * (7/10) < s.cumulative_disturbance then
      let s := updateFn s i (fun fn =>
        { fn with relationship_level := fn.relationship_level - 1/10 })
      trigger_treaty_negotiations o s p.2 i
    else
      (updateFn s i (fun fn => { fn with agreement_signed := true }), p.2)
  else
    (updateFn s i (fun fn => { fn with agreement_signed := true }), p.2)

/-- One individual-meeting loop iteration for nation `i`: resets the
clock, +0.1 relationship; a 70% roll signs (unless a treaty nation is at
80%+ of the cap), otherwise the nation's consultation cost rises. -/
def individualStep (o : Oracle) (p : GameState × ℕ) (i : ℕ) : GameState × ℕ :=
  let s := updateFn p.1 i (fun fn =>
    { fn with last_consultation_year := p.1.year,
              relationship_level := fn.relationship_level + 1/10 })
  if o.unif p.2 < 7/10 then
    if !(getFn s i).treaty_area || s.cumulative_disturbance < s.disturbance_cap * (8/10) then
      (updateFn s i (fun fn => { fn with agreement_signed := true }), p.2 + 1)
    else (s, p.2 + 1)
  else
    (updateFn s i (fun fn => { fn with consultation_cost := fn.consultation_cost + 5000 }),
     p.2 + 1)

/-- One minimal-notice loop iteration for nation `i`: resets the clock,
-0.2 relationship; a treaty nation loses its agreement and with
probability 0.3 triggers a legal challenge. -/
def minimalStep (o : Oracle) (p : GameState × ℕ) (i : ℕ) : GameState × ℕ :=
  let s := updateFn p.1 i (fun fn =>
    { fn with last_consultation_year := p.1.year,
              relationship_level := fn.relationship_level - 2/10 })
  if (getFn s i).treaty_area then
    let s := updateFn s i (fun fn => { fn with agreement_signed := false })
    if o.unif p.2 < 3/10 then trigger_legal_challenge o s (p.2 + 1) i
    else (s, p.2 + 1)
  else (s, p.2)

/-- One delay loop iteration for nation `i`: -0.3 relationship, drops
the agreement, and a treaty nation always triggers a legal challenge.
The consultation clock is NOT reset. -/
def delayStep (o : Oracle) (p : GameState × ℕ) (i : ℕ) : GameState × ℕ :=
  let s := updateFn p.1 i (fun fn =>
    { fn with relationship_level := fn.relationship_level - 3/10,
              agreement_signed := false })
  if (getFn s i).treaty_area then trigger_legal_challenge o s p.2 i
  else (s, p.2)

/-- Positions of the nations needing consultation this year. -/
def needingIdx (s : GameState) : List ℕ :=
  (List.range s.first_nations.length).filter
    (fun i => (s.first_nations.getD i default).needs_consultation s.year)

/-- `ongoing_first_nations_consultation`: a no-op when nobody needs
consultation; otherwise one of four approaches chosen by the player.
Comprehensive (2x cost per nation) and individual (1x) abort as no-ops
when unaffordable; minimal notice deducts its $2000-per-nation
notification cost without any affordability check; delay is free. -/
def ongoing_first_nations_consultation (o : Oracle) (s : GameState) (k : ℕ) : GameState :=
  let needing := needingIdx s
  if needing = [] then s
  else
    let c := o.sel k
    let k := k + 1
    if c = 0 then
      let cost := (needing.map (fun i => (getFn s i).consultation_cost * 2)).sum
      if s.budget < cost then s
      else
        let s := { s with budget := s.budget - cost }
        let p := needing.foldl (comprehensiveStep o) (s, k)
        { p.1 with reputation := p.1.reputation + 2/10,
                   permit_bonus := p.1.permit_bonus + 15/100 }
    else if c = 1 then
      let cost := (needing.map (fun i => (getFn s i).consultation_cost)).sum
      if s.budget < cost then s
      else
        let s := { s with budget := s.budget - cost }
        let p := needing.foldl (individualStep o) (s, k)
        { p.1 with reputation := p.1.reputation + 1/10,
                   permit_bonus := p.1.permit_bonus + 5/100 }
    else if c = 2 then
      let cost := (needing.length : ℚ) * 2000
      let s := { s with budget := s.budget - cost }
      let p := needing.foldl (minimalStep o) (s, k)
      { p.1 with reputation := p.1.reputation - 2/10,
                 permit_bonus := p.1.permit_bonus - 1/10 }
    else
      let p := needing.foldl (delayStep o) (s, k)
      { p.1 with reputation := p.1.reputation - 3/10,
                 permit_bonus := p.1.permit_bonus - 2/10,
                 social_license_maintained := false }

/-! ## Harvest planning (`forestry_game_modular.py`, `plan_harvest_schedule`) -/

/-- The five block-size categories of the planning loop. -/
inductive SizeCat
  | tiny
  | small
  | medium
  | large
  | massive
  deriving DecidableEq

/-- Lower bound of each size range. -/
def sizeMin : SizeCat → ℤ
  | .tiny => 3000
  | .small => 12000
  | .medium => 25000
  | .large => 45000
  | .massive => 80000

/-- Upper bound of each size range. -/
def sizeMax : SizeCat → ℤ
  | .tiny => 12000
  | .small => 25000
  | .medium => 45000
  | .large => 80000
  | .massive => 150000

/-- `random.choices` over a tier of candidate categories: every listed
category is reachable, which is all the claims depend on. -/
def pickCat (cands : List SizeCat) (r : ℕ) : SizeCat :=
  cands.getD (r % cands.length) .tiny

/-- The size-category tiers conditioned on the remaining volume. -/
def chooseCategory (remaining : ℤ) (r : ℕ) : SizeCat :=
  if remaining < 12000 then .tiny
  else if remaining < 25000 then pickCat [.tiny, .small] r
  else if remaining < 45000 then pickCat [.tiny, .small, .medium] r
  else if remaining < 80000 then pickCat [.small, .medium, .large] r
  else pickCat [.medium, .large, .massive] r

/-- Target size of the next block (`remaining > 0` at every call):
below 5000 the whole remainder becomes one tiny block; otherwise a
category is drawn, and the size is the remainder when it is at most the
range minimum, else `randint(min, min(max, remaining))`.  Returns the
target, the drawn category, and the next oracle index. -/
def targetSize (o : Oracle) (k : ℕ) (remaining : ℤ) : ℤ × SizeCat × ℕ :=
  if remaining < 5000 then (remaining, .tiny, k)
  else
    let cat := chooseCategory remaining (o.nat k)
    let mn := sizeMin cat
    if remaining ≤ mn then (remaining, cat, k + 1)
    else (pyRandint mn (min (sizeMax cat) remaining) (o.nat (k + 1)), cat, k + 2)

/-- Zero-padded two-digit counter used in block ids. -/
def pad2 (n : ℕ) : String :=
  if n < 10 then "0" ++ toString n else toString n

/-- Priority and old-growth risk assigned from the size category, then
the block record itself. -/
def makeBlock (o : Oracle) (region : String) (year quarter : ℤ) (count : ℕ)
    (target : ℤ) (cat : SizeCat) (k : ℕ) : HarvestBlock × ℕ :=
  let pr : ℤ × ℚ × ℕ :=
    match cat with
    | .massive => (3, 8/10, k)
    | .large => ([2, 3].getD (o.nat k % 2) 2, 5/10, k + 1)
    | .medium => ([1, 2, 3].getD (o.nat k % 3) 1, 3/10, k + 1)
    | _ => ([1, 2].getD (o.nat k % 2) 1, 1/10, k + 1)
  ({ id := region ++ "-" ++ toString year ++ "Q" ++ toString quarter ++ "-" ++ pad2 count,
     volume_m3 := target,
     year_planned := year,
     old_growth_affected := decide (o.unif pr.2.2 < pr.2.1),
     priority := pr.1 }, pr.2.2 + 1)

/-- The block-creation loop of `plan_harvest_schedule`: runs while
volume remains and fewer than 20 blocks were created (`fuel` counts the
iterations still allowed, starting at 20).  Returns the new blocks and
the next oracle index. -/
def planBlocksGo (o : Oracle) (region : String) (year quarter : ℤ) :
    ℕ → ℕ → ℤ → ℕ → List HarvestBlock × ℕ
  | 0, _, _, k => ([], k)
  | fuel + 1, count, remaining, k =>
    if 0 < remaining then
      let t := targetSize o k remaining
      let bk := makeBlock o region year quarter (count + 1) t.1 t.2.1 t.2.2
      let rest := planBlocksGo o region year quarter fuel (count + 1) (remaining - t.1) bk.2
      (bk.1 :: rest.1, rest.2)
    else ([], k)

/-- The new blocks created by `plan_harvest_schedule` for a chosen
planned volume (the interactive volume choice and the display code
around the loop do not touch the blocks). -/
def plan_harvest_blocks (o : Oracle) (region : String) (year quarter : ℤ)
    (planned_volume : ℤ) (k : ℕ) : List HarvestBlock :=
  (planBlocksGo o region year quarter 20 0 planned_volume k).1

/-! ## Harvest economics (`forestry_game_modular.py`, `conduct_harvest_operations`) -/

/-- Effective volume of a block after its disaster loss fraction. -/
def effectiveVolume (b : HarvestBlock) : ℤ :=
  if b.disaster_affected then pyInt ((b.volume_m3 : ℚ) * (1 - b.volume_loss_percent))
  else b.volume_m3

/-- `GameState.get_certification_revenue_bonus`. -/
def GameState.get_certification_revenue_bonus (s : GameState) : ℚ :=
  (s.get_active_certifications.map (·.revenue_bonus)).sum

/-- `conduct_harvest_operations`, taken at the interface of the natural
disaster subroutine: `s` is the state after
`natural_disasters_during_harvest` mutated the approved blocks, and
`volumeLossFactor` is that call's return value.  `weather` is the
uniform weather roll (below 0.1 severe, below 0.25 poor, otherwise
good).  A no-op when no block is approved. -/
def conduct_harvest_operations (s : GameState) (volumeLossFactor weather : ℚ) : GameState :=
  let approved := s.harvest_blocks.filter (fun b => decide (b.permit_status = .approved))
  if approved = [] then s
  else
    let totalVolume := (approved.map effectiveVolume).sum
    let effRevPer := pyInt ((s.revenue_per_m3 : ℚ) * (1 + s.get_certification_revenue_bonus))
    let revenue : ℚ := ((totalVolume * effRevPer : ℤ) : ℚ)
    let costs : ℚ := ((totalVolume * s.operating_cost_per_m3 : ℤ) : ℚ)
    let costs := if 0 < volumeLossFactor then ((pyInt (costs * (1 + volumeLossFactor * (1/2))) : ℤ) : ℚ)
      else costs
    let rc : ℚ × ℚ :=
      if weather < 1/10 then (revenue * (85/100), costs * (115/100))
      else if weather < 25/100 then (revenue * (95/100), costs * (105/100))
      else (revenue, costs)
    let netProfit := rc.1 - rc.2
    { s with
      budget := s.budget + netProfit,
      total_revenue := s.total_revenue + rc.1,
      total_costs := s.total_costs + rc.2,
      quarterly_profit := netProfit,
      consecutive_profitable_years :=
        if 0 < netProfit then s.consecutive_profitable_years + 1 else 0,
      jobs_created := s.jobs_created + Int.ediv totalVolume 1000,
      harvest_blocks := s.harvest_blocks.filter (fun b => decide (b.permit_status ≠ .approved)) }

/-! ## Win/loss evaluation (`forestry_game_modular.py`, `check_win_conditions`) -/

/-- The terminal verdicts, in the textual order of the source; the
returned message strings are presentation and are embedded as this
enum. -/
inductive Verdict
  | econWin
  | envWin
  | reconciliationWin
  | certWin
  | survivalWin
  | bankruptcy
  | reputationCollapse
  | regulatoryShutdown
  deriving DecidableEq

/-- `check_win_conditions`: the five win conditions are tested first, in
source order, then the three loss conditions; the first match is
returned, else `(false, none)`. -/
def check_win_conditions (s : GameState) : Bool × Option Verdict :=
  if 5 ≤ s.consecutive_profitable_years ∧ 3000000 < s.budget ∧ 200 < s.jobs_created then
    (true, some .econWin)
  else if 8/10 < s.reputation ∧ 7/10 < s.biodiversity_score ∧
      s.social_license_maintained = true ∧
      s.cumulative_disturbance < s.disturbance_cap * (6/10) then
    (true, some .envWin)
  else if (∀ fn ∈ s.first_nations, 8/10 < fn.relationship_level) ∧
      (∀ fn ∈ s.first_nations, fn.agreement_signed = true) ∧
      7/10 < s.reputation ∧ 5 ≤ s.years_operated ∧ 1000000 < s.total_revenue then
    (true, some .reconciliationWin)
  else if 2 ≤ s.get_active_certifications.length ∧ 7/10 < s.reputation ∧
      3 ≤ s.consecutive_profitable_years then
    (true, some .certWin)
  else if 10 ≤ s.years_operated ∧ 500000 < s.budget then
    (true, some .survivalWin)
  else if s.budget < 0 then
    (true, some .bankruptcy)
  else if s.reputation < 1/10 then
    (true, some .reputationCollapse)
  else if s.disturbance_cap * (12/10) < s.cumulative_disturbance then
    (true, some .regulatoryShutdown)
  else (false, Option.none)

/-! ## Simple illegal acts (`illegal_activities_enhanced.py`) -/

/-- `SimpleIllegalAct` (story/description strings dropped). -/
structure SimpleIllegalAct where
  name : String
  cost_savings : ℤ
  detection_risk : ℚ
  reputation_penalty : ℚ
  fine_amount : ℤ
  deriving DecidableEq

/-- The bribe offered in `_handle_simple_detection`: `int(fine * 0.3)`. -/
def bribeAmount (act : SimpleIllegalAct) : ℤ := pyInt ((act.fine_amount : ℚ) * (3/10))

/-- `_handle_simple_detection`: the fine and (0-clamped) reputation hit
always apply; for fines under 600000 with over 50000 budget left the
player may attempt a bribe of `int(fine*0.3)`, which on a failed 40%
roll doubles the fine (an equal additional fine) and costs 0.2 more
reputation, again clamped at 0. -/
def handle_simple_detection (s : GameState) (act : SimpleIllegalAct)
    (bribeChoice : ℕ) (roll : ℚ) : GameState :=
  let s := { s with budget := s.budget - (act.fine_amount : ℚ),
                    reputation := max 0 (s.reputation - act.reputation_penalty) }
  if act.fine_amount < 600000 ∧ 50000 < s.budget then
    if bribeChoice = 0 then
      if (bribeAmount act : ℚ) ≤ s.budget then
        let s := { s with budget := s.budget - (bribeAmount act : ℚ) }
        if roll < 4/10 then
          { s with budget := s.budget + ((pyInt ((act.fine_amount : ℚ) * (7/10)) : ℤ) : ℚ) }
        else
          { s with budget := s.budget - (act.fine_amount : ℚ),
                   reputation := max 0 (s.reputation - 2/10) }
      else s
    else s
  else s

/-! ## Concrete fixtures used by counterexamples and witnesses -/

/-- A state that is simultaneously bankrupt (budget `-1`) and an
environmental-steward winner. -/
def bankruptSteward : GameState :=
  { budget := -1, reputation := 9/10, biodiversity_score := 8/10,
    cumulative_disturbance := 0, disturbance_cap := 50000,
    social_license_maintained := true, years_operated := 0,
    consecutive_profitable_years := 0, jobs_created := 0,
    first_nations := [], certifications := [] }

/-- A concrete harvest state: one approved 10000 m³ block at the default
85/45 prices, no certifications. -/
def harvestFixture : GameState :=
  { harvest_blocks := [{ id := "SBS-2025Q2-01", volume_m3 := 10000,
                         year_planned := 2025, permit_status := .approved }],
    certifications := [] }

/-- The `Dump Equipment Fluids` act of the source: a base-tier fine of
400000 (below the 600000 bribery threshold). -/
def dumpFluidsAct : SimpleIllegalAct :=
  { name := "Dump Equipment Fluids", cost_savings := 85000,
    detection_risk := 3/10, reputation_penalty := 3/10, fine_amount := 400000 }

/-- A freshly constructed default game state (budget 2500000). -/
def defaultState : GameState := {}

/-- A submitted block, due for a decision in 2025 Q1 and lacking a First
Nations agreement. -/
def dueBlock : HarvestBlock :=
  { id := "SBS-2024Q1-01", volume_m3 := 20000, year_planned := 2024,
    permit_status := .pending, permit_submitted := 2024, processing_time := 100,
    first_nations_agreement := false }

/-- A state with reputation 0.03, holding `dueBlock`. -/
def lowRepState : GameState :=
  { year := 2025, quarter := 1, reputation := 3/100, harvest_blocks := [dueBlock] }

/-- A non-treaty nation whose consultation is overdue in 2025. -/
def overdueNation : FirstNation :=
  { name := "Carrier Nation", relationship_level := 1/2, treaty_area := false,
    last_consultation_year := 2020, consultation_frequency_required := 2 }

/-- A nearly broke state (budget 1000) with one overdue nation. -/
def brokeState : GameState :=
  { year := 2025, budget := 1000, first_nations := [overdueNation] }

/-- Oracle whose every menu selection is 2 (minimal notice). -/
def minimalOracle : Oracle :=
  { unif := fun _ => 99/100, nat := fun _ => 0, sel := fun _ => 2 }

/-- A pending block lacking a First Nations agreement (so its
application is complex: 5000 + 10000 = 15000 to submit). -/
def pendingComplexBlock : HarvestBlock :=
  { id := "SBS-2025Q1-01", volume_m3 := 20000, year_planned := 2025,
    permit_status := .pending, first_nations_agreement := false }

/-- A nearly broke state holding one pending complex block. -/
def subBrokeState : GameState :=
  { year := 2025, budget := 1000, harvest_blocks := [pendingComplexBlock] }

/-- Oracle whose every menu selection is 0. -/
def allZeroOracle : Oracle :=
  { unif := fun _ => 99/100, nat := fun _ => 0, sel := fun _ => 0 }

/-- Oracle whose every menu selection is 1. -/
def allOneOracle : Oracle :=
  { unif := fun _ => 99/100, nat := fun _ => 0, sel := fun _ => 1 }

/-- A due block with a First Nations agreement, no old growth and no
disaster involvement. -/
def baseBlock : HarvestBlock :=
  { id := "SBS-2024Q1-01", volume_m3 := 20000, year_planned := 2024,
    permit_status := .pending, permit_submitted := 2024, processing_time := 100,
    first_nations_agreement := true, heritage_cleared := true }

/-- A penalty-free state at reputation 0.5 with no certifications,
holding `baseBlock`. -/
def baseState : GameState :=
  { year := 2025, quarter := 1, reputation := 1/2, permit_bonus := 0,
    harvest_blocks := [baseBlock], certifications := [] }

/-- The consultation clock of the nation at position `j`. -/
def getClock (s : GameState) (j : ℕ) : ℤ :=
  (s.first_nations.getD j default).last_consultation_year

/-- The permit-status transitions the embedded operations perform:
stay put, resolve a pending block to approved or denied, or delay an
approved block (the legal-challenge loss branch). -/
inductive statusStep : PermitStatus → PermitStatus → Prop
  | refl (st : PermitStatus) : statusStep st st
  | approve : statusStep .pending .approved
  | deny : statusStep .pending .denied
  | delay : statusStep .approved .delayed

/-- An approved block awaiting harvest. -/
def approvedBlock : HarvestBlock :=
  { id := "SBS-2024Q3-01", volume_m3 := 15000, year_planned := 2024,
    permit_status := .approved }

/-- A state with one approved block and one nation, for the
legal-challenge counterexample. -/
def challengedState : GameState :=
  { year := 2025, reputation := 1/2, first_nations := [overdueNation],
    harvest_blocks := [approvedBlock] }

/-- Oracle that loses every probability roll (uniform draws of 0.99). -/
def loseOracle : Oracle :=
  { unif := fun _ => 99/100, nat := fun _ => 0, sel := fun _ => 0 }

/-- Oracle whose every menu selection is 3 (delay consultations). -/
def delayOracle : Oracle :=
  { unif := fun _ => 99/100, nat := fun _ => 0, sel := fun _ => 3 }

/-- A well-funded state (budget 2500000) with one overdue nation. -/
def consultState : GameState :=
  { year := 2025, budget := 2500000, first_nations := [overdueNation] }

/-! # Theorems -/

/-! ## List helper lemmas -/

theorem length_updateAt {α : Type} (l : List α) (i : ℕ) (g : α → α) :
    (updateAt l i g).length = l.length := by
  induction l generalizing i with
  | nil => rfl
  | cons a l ih =>
    cases i with
    | zero => rfl
    | succ n => simp [updateAt, ih]

theorem map_updateAt_of_proj_eq {α β : Type} (proj : α → β) (g : α → α)
    (hg : ∀ a, proj (g a) = proj a) :
    ∀ (l : List α) (i : ℕ), (updateAt l i g).map proj = l.map proj := by
  intro l
  induction l with
  | nil => intro i; rfl
  | cons a l ih =>
    intro i
    cases i with
    | zero => simp [updateAt, hg]
    | succ n => simp [updateAt, ih]

theorem getD_updateAt_self {α : Type} (d : α) (g : α → α) :
    ∀ (l : List α) (i : ℕ), i < l.length →
      (updateAt l i g).getD i d = g (l.getD i d) := by
  intro l
  induction l with
  | nil => intro i h; simp at h
  | cons a l ih =>
    intro i h
    cases i with
    | zero => rfl
    | succ n =>
      simp only [updateAt, List.getD_cons_succ]
      exact ih n (by simpa using h)

theorem getD_updateAt_ne {α : Type} (d : α) (g : α → α) :
    ∀ (l : List α) (i j : ℕ), j ≠ i →
      (updateAt l i g).getD j d = l.getD j d := by
  intro l
  induction l with
  | nil => intro i j _; cases i <;> rfl
  | cons a l ih =>
    intro i j hne
    cases i with
    | zero =>
      cases j with
      | zero => exact absurd rfl hne
      | succ m => rfl
    | succ n =>
      cases j with
      | zero => rfl
      | succ m =>
        simp only [updateAt, List.getD_cons_succ]
        exact ih n m (fun h => hne (by simp [h]))

/-! ## C1: win/loss priority -/

/-- C1 counterexample: in `bankruptSteward` both the bankruptcy loss
condition (budget `-1 < 0`) and the environmental-steward win condition
hold, yet `check_win_conditions` reports the WIN, because the source
tests the five win conditions before the three loss conditions — the
claimed loss-first priority is false. -/
theorem check_win_reports_win_when_bankrupt_ex :
    bankruptSteward.budget < 0 ∧
      check_win_conditions bankruptSteward = (true, some .envWin) := by
  constructor
  · norm_num [bankruptSteward]
  · norm_num [check_win_conditions, bankruptSteward]

/-- C1 (amended): `check_win_conditions` tests the five win conditions
before the three loss conditions, so in a state where a loss condition
(e.g. budget < 0) and a win condition (here environmental steward) hold
simultaneously, the win verdict is the one reported. -/
theorem win_conditions_checked_before_loss (s : GameState)
    (hbank : s.budget < 0)
    (hrep : 8/10 < s.reputation) (hbio : 7/10 < s.biodiversity_score)
    (hsoc : s.social_license_maintained = true)
    (hdist : s.cumulative_disturbance < s.disturbance_cap * (6/10)) :
    check_win_conditions s = (true, some .envWin) := by
  unfold check_win_conditions
  rw [if_neg, if_pos ⟨hrep, hbio, hsoc, hdist⟩]
  rintro ⟨-, h2, -⟩
  linarith

/-- Witness for `win_conditions_checked_before_loss` at the concrete
bankrupt winner state. -/
theorem win_conditions_checked_before_loss_witness :
    check_win_conditions bankruptSteward = (true, some .envWin) :=
  win_conditions_checked_before_loss bankruptSteward
    (by norm_num [bankruptSteward]) (by norm_num [bankruptSteward])
    (by norm_num [bankruptSteward]) (by norm_num [bankruptSteward])
    (by norm_num [bankruptSteward])

/-! ## C8: harvest economics scenario -/

/-- C8: with approved blocks totalling 10000 m³, price 85/m³, cost
45/m³, no active certification, no disaster losses and a good-weather
roll, the harvest adds exactly revenue 850000, cost 450000 and profit
400000 to the running totals and the budget. -/
theorem harvest_economics_scenario (s : GameState) (weather : ℚ)
    (hprice : s.revenue_per_m3 = 85) (hcost : s.operating_cost_per_m3 = 45)
    (hcert : s.get_active_certifications = [])
    (hvol : ((s.harvest_blocks.filter
        (fun b => decide (b.permit_status = .approved))).map (·.volume_m3)).sum = 10000)
    (hnd : ∀ b ∈ s.harvest_blocks, b.permit_status = .approved →
        b.disaster_affected = false)
    (hne : s.harvest_blocks.filter (fun b => decide (b.permit_status = .approved)) ≠ [])
    (hweather : 25/100 ≤ weather) :
    (conduct_harvest_operations s 0 weather).budget = s.budget + 400000 ∧
      (conduct_harvest_operations s 0 weather).total_revenue = s.total_revenue + 850000 ∧
      (conduct_harvest_operations s 0 weather).total_costs = s.total_costs + 450000 := by
  have hmap : (s.harvest_blocks.filter
      (fun b => decide (b.permit_status = .approved))).map effectiveVolume =
      (s.harvest_blocks.filter
        (fun b => decide (b.permit_status = .approved))).map (·.volume_m3) := by
    apply List.map_congr_left
    intro b hb
    have hb' := List.of_mem_filter hb
    have hb'' : b ∈ s.harvest_blocks := List.mem_of_mem_filter hb
    have : b.disaster_affected = false :=
      hnd b hb'' (by simpa using hb')
    simp [effectiveVolume, this]
  have hbonus : s.get_certification_revenue_bonus = 0 := by
    simp [GameState.get_certification_revenue_bonus, hcert]
  unfold conduct_harvest_operations
  rw [if_neg hne]
  simp only [hmap, hvol, hbonus, hprice, hcost]
  have hw1 : ¬ weather < 1/10 := by linarith
  have hw2 : ¬ weather < 1/4 := by linarith
  norm_num [hw1, hw2, pyInt]

/-- Witness for `harvest_economics_scenario` at `harvestFixture` with a
good-weather roll of 0.5. -/
theorem harvest_economics_scenario_witness :
    (conduct_harvest_operations harvestFixture 0 (1/2)).budget =
      harvestFixture.budget + 400000 ∧
      (conduct_harvest_operations harvestFixture 0 (1/2)).total_revenue =
        harvestFixture.total_revenue + 850000 ∧
      (conduct_harvest_operations harvestFixture 0 (1/2)).total_costs =
        harvestFixture.total_costs + 450000 :=
  harvest_economics_scenario harvestFixture (1/2) rfl rfl rfl rfl
    (by
      intro b hb
      simp only [harvestFixture, List.mem_singleton] at hb
      subst hb
      intro _
      rfl)
    (by simp [harvestFixture]) (by norm_num)

/-! ## C9: bribery detection amplification -/

/-- C9: when a bribe on a base-tier fine (the sub-600000 tier where the
bribery option exists) is attempted and detected, the total monetary
penalty is the original fine, an equal additional fine, and the
unrefunded bribe — at least twice the base fine, and never below the
non-bribery branch's penalty (the base fine alone). -/
theorem bribery_detection_amplification (s : GameState) (act : SimpleIllegalAct)
    (roll : ℚ)
    (hfine : 0 ≤ act.fine_amount) (hsmall : act.fine_amount < 600000)
    (hbud : 50000 < s.budget - (act.fine_amount : ℚ))
    (haff : (bribeAmount act : ℚ) ≤ s.budget - (act.fine_amount : ℚ))
    (hdet : 4/10 ≤ roll) :
    s.budget - (handle_simple_detection s act 0 roll).budget =
      2 * (act.fine_amount : ℚ) + (bribeAmount act : ℚ) ∧
    2 * (act.fine_amount : ℚ) ≤ 2 * (act.fine_amount : ℚ) + (bribeAmount act : ℚ) ∧
    s.budget - (handle_simple_detection s act 1 roll).budget ≤
      s.budget - (handle_simple_detection s act 0 roll).budget := by
  have hbr : (0 : ℤ) ≤ bribeAmount act := by
    have harg : (0 : ℚ) ≤ (act.fine_amount : ℚ) * (3/10) := by
      have : (0 : ℚ) ≤ (act.fine_amount : ℚ) := by exact_mod_cast hfine
      linarith
    simp only [bribeAmount, pyInt, if_pos harg]
    exact Int.floor_nonneg.mpr harg
  have hroll : ¬ roll < 4/10 := by linarith
  have h0 : handle_simple_detection s act 0 roll =
      { s with budget := s.budget - (act.fine_amount : ℚ) - (bribeAmount act : ℚ)
                          - (act.fine_amount : ℚ),
               reputation := max 0 (max 0 (s.reputation - act.reputation_penalty) - 2/10) } := by
    simp only [handle_simple_detection]
    rw [if_pos ⟨hsmall, hbud⟩]
    simp only [if_true]
    rw [if_pos haff, if_neg hroll]
  have h1 : handle_simple_detection s act 1 roll =
      { s with budget := s.budget - (act.fine_amount : ℚ),
               reputation := max 0 (s.reputation - act.reputation_penalty) } := by
    simp only [handle_simple_detection]
    rw [if_pos ⟨hsmall, hbud⟩]
    norm_num
  rw [h0, h1]
  refine ⟨by ring, ?_, ?_⟩
  · have : (0 : ℚ) ≤ (bribeAmount act : ℚ) := by exact_mod_cast hbr
    linarith
  · have h2 : (0 : ℚ) ≤ (bribeAmount act : ℚ) := by exact_mod_cast hbr
    have h3 : (0 : ℚ) ≤ (act.fine_amount : ℚ) := by exact_mod_cast hfine
    simp only
    linarith

/-- Witness for `bribery_detection_amplification`: the default state,
the concrete 400000 fine, and a failed-bribe roll of 0.5. -/
theorem bribery_detection_amplification_witness :
    defaultState.budget - (handle_simple_detection defaultState dumpFluidsAct 0 (1/2)).budget =
      2 * (dumpFluidsAct.fine_amount : ℚ) + (bribeAmount dumpFluidsAct : ℚ) ∧
    2 * (dumpFluidsAct.fine_amount : ℚ) ≤
      2 * (dumpFluidsAct.fine_amount : ℚ) + (bribeAmount dumpFluidsAct : ℚ) ∧
    defaultState.budget - (handle_simple_detection defaultState dumpFluidsAct 1 (1/2)).budget ≤
      defaultState.budget - (handle_simple_detection defaultState dumpFluidsAct 0 (1/2)).budget :=
  bribery_detection_amplification defaultState dumpFluidsAct (1/2)
    (by norm_num [dumpFluidsAct]) (by norm_num [dumpFluidsAct])
    (by norm_num [dumpFluidsAct, defaultState])
    (by norm_num [dumpFluidsAct, defaultState, bribeAmount, pyInt])
    (by norm_num)

/-! ## C2: [0,1] clamping of reputation/relationship updates -/

set_option maxHeartbeats 1000000 in
/-- C2 counterexample: `process_permits` applies the permit-denial
reputation penalty `reputation -= 0.05` without clamping, so a state
with reputation 0.03 ∈ [0,1] ends at -0.02 ∉ [0,1] after one denial. -/
theorem permit_denial_reputation_unclamped_ex :
    0 ≤ lowRepState.reputation ∧ lowRepState.reputation ≤ 1 ∧
      (process_permits lowRepState (fun _ => 9/10)).reputation < 0 := by
  refine ⟨by norm_num [lowRepState], by norm_num [lowRepState], ?_⟩
  norm_num [process_permits, processPermitsAux, permitDue, daysElapsed,
    approvalChance, GameState.get_active_certifications, lowRepState, dueBlock]

set_option maxHeartbeats 1000000 in
/-- C2 (amended): updates are not uniformly clamped (the permit-denial
penalty is raw, as the counterexample shows), but the illegal-activity
detection handler does clamp: its reputation writes are `max(0, ...)`
and only decrease, so reputation stays within [0,1] there. -/
theorem detection_handler_reputation_clamped (s : GameState)
    (act : SimpleIllegalAct) (c : ℕ) (roll : ℚ)
    (h0 : 0 ≤ s.reputation) (h1 : s.reputation ≤ 1)
    (hp : 0 ≤ act.reputation_penalty) :
    0 ≤ (handle_simple_detection s act c roll).reputation ∧
      (handle_simple_detection s act c roll).reputation ≤ 1 := by
  have hin : max 0 (s.reputation - act.reputation_penalty) ≤ 1 :=
    max_le (by norm_num) (by linarith)
  unfold handle_simple_detection
  dsimp only
  split_ifs <;> refine ⟨le_max_left 0 _, ?_⟩ <;>
    first
      | exact hin
      | exact max_le (by norm_num) (by linarith [hin])

/-- Witness for `detection_handler_reputation_clamped` at the default
state and the concrete 400000-fine act. -/
theorem detection_handler_reputation_clamped_witness :
    0 ≤ (handle_simple_detection defaultState dumpFluidsAct 0 (1/2)).reputation ∧
      (handle_simple_detection defaultState dumpFluidsAct 0 (1/2)).reputation ≤ 1 :=
  detection_handler_reputation_clamped defaultState dumpFluidsAct 0 (1/2)
    (by norm_num [defaultState]) (by norm_num [defaultState])
    (by norm_num [dumpFluidsAct])

/-! ## C3: paid actions abort as no-ops on insufficient budget -/

/-- C3 counterexample: the minimal-notice branch deducts its
notification cost (2000 per nation) without any affordability check;
with budget 1000 the cost 2000 exceeds the budget, yet the budget is
charged and driven to -1000 instead of the action aborting as a
no-op. -/
theorem minimal_notice_charges_without_check_ex :
    brokeState.budget < ((needingIdx brokeState).length : ℚ) * 2000 ∧
      (ongoing_first_nations_consultation minimalOracle brokeState 0).budget = -1000 := by
  constructor
  · norm_num [brokeState, needingIdx, overdueNation, FirstNation.needs_consultation,
      List.range_succ]
  · norm_num [ongoing_first_nations_consultation, needingIdx, brokeState,
      overdueNation, minimalOracle, FirstNation.needs_consultation, minimalStep,
      updateFn, getFn, updateAt, List.range_succ]

/-- C3 (amended): the affordability check does hold for the permit
submission batch (the whole batch aborts with no charge) and for the
comprehensive and individual consultation approaches — but not for the
minimal-notice branch, which charges unconditionally (see the
counterexample). -/
theorem paid_actions_abort_without_charge (o : Oracle) (s : GameState) (k : ℕ)
    (choice : ℕ) (parseOk : Bool) (idxs : List ℤ) (confirm : ℕ) :
    (∀ sel, selectedIdx s choice parseOk idxs = some sel →
        s.budget < submissionCost s sel →
        selective_permit_submission o s k choice parseOk idxs confirm = s) ∧
    (o.sel k = 0 →
        s.budget < ((needingIdx s).map (fun i => (getFn s i).consultation_cost * 2)).sum →
        ongoing_first_nations_consultation o s k = s) ∧
    (o.sel k = 1 →
        s.budget < ((needingIdx s).map (fun i => (getFn s i).consultation_cost)).sum →
        ongoing_first_nations_consultation o s k = s) := by
  refine ⟨?_, ?_, ?_⟩
  · intro sel hsel hover
    unfold selective_permit_submission
    rw [hsel]
    by_cases hpend : pendingIdx s = []
    · rw [if_pos hpend]
    · rw [if_neg hpend]
      dsimp only
      by_cases hnil : sel = []
      · rw [if_pos hnil]
      · rw [if_neg hnil, if_pos hover]
  · intro hc hover
    unfold ongoing_first_nations_consultation
    dsimp only
    by_cases hneed : needingIdx s = []
    · rw [if_pos hneed]
    · rw [if_neg hneed, if_pos hc, if_pos hover]
  · intro hc hover
    unfold ongoing_first_nations_consultation
    dsimp only
    by_cases hneed : needingIdx s = []
    · rw [if_pos hneed]
    · rw [if_neg hneed, if_neg (by simp [hc]), if_pos hc, if_pos hover]

/-- Witness for `paid_actions_abort_without_charge`: a 15000 submission
with budget 1000, and 16000/8000 consultation bills with budget 1000,
all abort unchanged. -/
theorem paid_actions_abort_without_charge_witness :
    selective_permit_submission allZeroOracle subBrokeState 0 0 true [] 0 = subBrokeState ∧
      ongoing_first_nations_consultation allZeroOracle brokeState 0 = brokeState ∧
      ongoing_first_nations_consultation allOneOracle brokeState 0 = brokeState :=
  ⟨(paid_actions_abort_without_charge allZeroOracle subBrokeState 0 0 true [] 0).1
      (pendingIdx subBrokeState) rfl
      (by norm_num [submissionCost, pendingIdx, subBrokeState, pendingComplexBlock,
        complexBlock, List.range_succ]),
   (paid_actions_abort_without_charge allZeroOracle brokeState 0 0 true [] 0).2.1 rfl
      (by norm_num [needingIdx, brokeState, overdueNation, getFn,
        FirstNation.needs_consultation, List.range_succ]),
   (paid_actions_abort_without_charge allOneOracle brokeState 0 0 true [] 0).2.2 rfl
      (by norm_num [needingIdx, brokeState, overdueNation, getFn,
        FirstNation.needs_consultation, List.range_succ])⟩

/-! ## C4: permit approval probability -/

/-- C4: for a due block, `process_permits` approves it exactly when the
uniform roll (in `[0,1)`) is below the approval chance — equivalently,
below the `[0,1]`-clamp of the chance, so the effective approval
probability is the claimed clamped formula; and with no permit bonus,
reputation 0.5, no certifications and no penalties the chance is exactly
0.7. -/
theorem permit_approval_probability_clamped (s : GameState) (b : HarvestBlock)
    (rand : ℕ → ℚ)
    (hb : s.harvest_blocks = [b]) (hdue : permitDue s.year s.quarter b)
    (h0 : 0 ≤ rand 0) (h1 : rand 0 < 1) :
    ((process_permits s rand).harvest_blocks =
        [{ b with permit_status := .approved }] ↔
      rand 0 < clampQ (approvalChance s.permit_bonus s.old_growth_deferrals_expanded
        s.cumulative_disturbance s.disturbance_cap s.get_active_certifications.length
        s.reputation b) 0 1) ∧
    (s.permit_bonus = 0 → s.reputation = 1/2 → s.get_active_certifications = [] →
      b.first_nations_agreement = true → b.disaster_affected = false →
      (b.old_growth_affected && s.old_growth_deferrals_expanded) = false →
      ¬ s.disturbance_cap < s.cumulative_disturbance →
      approvalChance s.permit_bonus s.old_growth_deferrals_expanded
        s.cumulative_disturbance s.disturbance_cap s.get_active_certifications.length
        s.reputation b = 7/10) := by
  constructor
  · unfold process_permits
    rw [hb]
    simp only [processPermitsAux, if_pos hdue]
    by_cases hr : rand 0 < approvalChance s.permit_bonus s.old_growth_deferrals_expanded
        s.cumulative_disturbance s.disturbance_cap s.get_active_certifications.length
        s.reputation b
    · rw [if_pos hr]
      dsimp only
      constructor
      · intro _
        unfold clampQ
        exact lt_max_of_lt_right (lt_min h1 hr)
      · intro _
        rfl
    · rw [if_neg hr]
      dsimp only
      constructor
      · intro hEq
        simp [HarvestBlock.mk.injEq] at hEq
      · intro hcl
        exfalso
        apply hr
        unfold clampQ at hcl
        rcases lt_max_iff.mp hcl with h | h
        · linarith
        · exact (lt_min_iff.mp h).2
  · intro hpb hrep hcert hagr hdis hog hcap
    rw [hcert]
    simp only [approvalChance, hpb, hrep, hagr, hdis, hog, if_neg hcap,
      List.length_nil, if_true, Bool.false_eq_true, if_false]
    norm_num

/-- Witness for `permit_approval_probability_clamped` at `baseState`
with a roll of 0.5. -/
theorem permit_approval_probability_clamped_witness :
    ((process_permits baseState (fun _ => 1/2)).harvest_blocks =
        [{ baseBlock with permit_status := .approved }] ↔
      (1 : ℚ)/2 < clampQ (approvalChance baseState.permit_bonus
        baseState.old_growth_deferrals_expanded baseState.cumulative_disturbance
        baseState.disturbance_cap baseState.get_active_certifications.length
        baseState.reputation baseBlock) 0 1) ∧
    (baseState.permit_bonus = 0 → baseState.reputation = 1/2 →
      baseState.get_active_certifications = [] →
      baseBlock.first_nations_agreement = true → baseBlock.disaster_affected = false →
      (baseBlock.old_growth_affected && baseState.old_growth_deferrals_expanded) = false →
      ¬ baseState.disturbance_cap < baseState.cumulative_disturbance →
      approvalChance baseState.permit_bonus baseState.old_growth_deferrals_expanded
        baseState.cumulative_disturbance baseState.disturbance_cap
        baseState.get_active_certifications.length baseState.reputation baseBlock = 7/10) :=
  permit_approval_probability_clamped baseState baseBlock (fun _ => 1/2) rfl
    ⟨rfl, by norm_num [baseBlock], by norm_num [baseBlock, daysElapsed, baseState]⟩
    (by norm_num) (by norm_num)

/-! ## C7: permit resolution idempotence -/

theorem processPermitsAux_not_due (year quarter : ℤ) (pb : ℚ) (ogde : Bool)
    (cd cap : ℚ) (nCert : ℕ) (rand : ℕ → ℚ) :
    ∀ (bs : List HarvestBlock) (rep : ℚ) (k : ℕ),
      (∀ b ∈ bs, ¬ permitDue year quarter b) →
      processPermitsAux year quarter pb ogde cd cap nCert rand bs rep k = (bs, rep, k) := by
  intro bs
  induction bs with
  | nil => intro rep k _; rfl
  | cons b bs ih =>
    intro rep k h
    have hb := h b (List.mem_cons_self b bs)
    have hrest := ih rep k (fun x hx => h x (List.mem_cons_of_mem b hx))
    simp only [processPermitsAux, if_neg hb, hrest]

theorem processPermitsAux_terminal (year quarter : ℤ) (pb : ℚ) (ogde : Bool)
    (cd cap : ℚ) (nCert : ℕ) (rand : ℕ → ℚ) :
    ∀ (bs : List HarvestBlock) (rep : ℚ) (k : ℕ),
      ∀ b' ∈ (processPermitsAux year quarter pb ogde cd cap nCert rand bs rep k).1,
        ¬ permitDue year quarter b' := by
  intro bs
  induction bs with
  | nil => intro rep k b' hb'; simp [processPermitsAux] at hb'
  | cons b bs ih =>
    intro rep k b' hb'
    by_cases hdue : permitDue year quarter b
    · simp only [processPermitsAux, if_pos hdue] at hb'
      by_cases hroll : rand k < approvalChance pb ogde cd cap nCert rep b
      · rw [if_pos hroll] at hb'
        rcases List.mem_cons.mp hb' with h | h
        · subst h
          intro hcontra
          exact absurd hcontra.1 (by simp)
        · exact ih rep (k + 1) b' h
      · rw [if_neg hroll] at hb'
        rcases List.mem_cons.mp hb' with h | h
        · subst h
          intro hcontra
          exact absurd hcontra.1 (by simp)
        · exact ih (rep - 5/100) (k + 1) b' h
    · simp only [processPermitsAux, if_neg hdue] at hb'
      rcases List.mem_cons.mp hb' with h | h
      · subst h; exact hdue
      · exact ih rep k b' h

/-- C7: `process_permits` is idempotent within a quarter: with no time
advance, a second resolution pass (under any randomness) leaves the
state exactly as the first pass left it — blocks that became approved
or denied are never re-rolled, and not-yet-due blocks are untouched
again. -/
theorem process_permits_idempotent (s : GameState) (r1 r2 : ℕ → ℚ) :
    process_permits (process_permits s r1) r2 = process_permits s r1 := by
  unfold process_permits
  dsimp only [GameState.get_active_certifications]
  rw [processPermitsAux_not_due _ _ _ _ _ _ _ _ _ _ _
    (processPermitsAux_terminal s.year s.quarter s.permit_bonus
      s.old_growth_deferrals_expanded s.cumulative_disturbance s.disturbance_cap
      (s.certifications.filter (fun c => c.active)).length r1 s.harvest_blocks
      s.reputation 0)]

/-! ## C10: harvest-planning loop bounds -/

theorem sizeMin_pos (cat : SizeCat) : 0 < sizeMin cat := by
  cases cat <;> norm_num [sizeMin]

theorem sizeMin_lt_sizeMax (cat : SizeCat) : sizeMin cat < sizeMax cat := by
  cases cat <;> norm_num [sizeMin, sizeMax]

theorem targetSize_bounds (o : Oracle) (k : ℕ) (remaining : ℤ) (h : 0 < remaining) :
    0 < (targetSize o k remaining).1 ∧ (targetSize o k remaining).1 ≤ remaining := by
  unfold targetSize
  dsimp only
  split_ifs with h5 hle
  · exact ⟨h, le_refl remaining⟩
  · exact ⟨h, le_refl remaining⟩
  · push_neg at hle
    set cat := chooseCategory remaining (o.nat k) with hcat
    have hmn : 0 < sizeMin cat := sizeMin_pos cat
    have hmx : sizeMin cat < sizeMax cat := sizeMin_lt_sizeMax cat
    have hb : sizeMin cat < min (sizeMax cat) remaining := lt_min hmx hle
    have hmodpos : 0 < min (sizeMax cat) remaining - sizeMin cat + 1 := by linarith
    have h0m : 0 ≤ ((o.nat (k + 1) : ℤ)) % (min (sizeMax cat) remaining - sizeMin cat + 1) :=
      Int.emod_nonneg _ (by linarith)
    have h1m : ((o.nat (k + 1) : ℤ)) % (min (sizeMax cat) remaining - sizeMin cat + 1) <
        min (sizeMax cat) remaining - sizeMin cat + 1 :=
      Int.emod_lt_of_pos _ hmodpos
    have hmr : min (sizeMax cat) remaining ≤ remaining := min_le_right _ _
    unfold pyRandint
    refine ⟨?_, ?_⟩ <;> dsimp only
    · linarith
    · linarith

theorem makeBlock_volume (o : Oracle) (region : String) (year quarter : ℤ)
    (count : ℕ) (target : ℤ) (cat : SizeCat) (k : ℕ) :
    (makeBlock o region year quarter count target cat k).1.volume_m3 = target := by
  cases cat <;> rfl

theorem planBlocksGo_bounds (o : Oracle) (region : String) (year quarter : ℤ) :
    ∀ (fuel count : ℕ) (remaining : ℤ) (k : ℕ), 0 ≤ remaining →
      (planBlocksGo o region year quarter fuel count remaining k).1.length ≤ fuel ∧
      (∀ b ∈ (planBlocksGo o region year quarter fuel count remaining k).1,
        0 < b.volume_m3) ∧
      ((planBlocksGo o region year quarter fuel count remaining k).1.map
        (·.volume_m3)).sum ≤ remaining := by
  intro fuel
  induction fuel with
  | zero =>
    intro count remaining k hrem
    refine ⟨by simp [planBlocksGo], by simp [planBlocksGo], ?_⟩
    simpa [planBlocksGo] using hrem
  | succ fuel ih =>
    intro count remaining k hrem
    by_cases hpos : 0 < remaining
    · have ht := targetSize_bounds o k remaining hpos
      have hrem' : 0 ≤ remaining - (targetSize o k remaining).1 := by linarith [ht.2]
      have ihx := ih (count + 1) (remaining - (targetSize o k remaining).1)
        ((makeBlock o region year quarter (count + 1) (targetSize o k remaining).1
          (targetSize o k remaining).2.1 (targetSize o k remaining).2.2).2) hrem'
      simp only [planBlocksGo, if_pos hpos]
      refine ⟨?_, ?_, ?_⟩
      · simpa [List.length_cons] using Nat.succ_le_succ ihx.1
      · intro b hb
        rcases List.mem_cons.mp hb with hhead | htail
        · subst hhead
          rw [makeBlock_volume]
          exact ht.1
        · exact ihx.2.1 b htail
      · simp only [List.map_cons, List.sum_cons, makeBlock_volume]
        linarith [ihx.2.2]
    · simp only [planBlocksGo, if_neg hpos]
      exact ⟨by simp, by simp, by simpa using hrem⟩

/-- C10: for every nonnegative planned volume and every randomness, the
block-creation loop of `plan_harvest_schedule` terminates with at most
20 new blocks, each of positive volume, whose volumes sum to at most the
planned volume. -/
theorem plan_harvest_blocks_bounded (o : Oracle) (region : String)
    (year quarter : ℤ) (planned : ℤ) (k : ℕ) (h : 0 ≤ planned) :
    (plan_harvest_blocks o region year quarter planned k).length ≤ 20 ∧
      (∀ b ∈ plan_harvest_blocks o region year quarter planned k, 0 < b.volume_m3) ∧
      ((plan_harvest_blocks o region year quarter planned k).map
        (·.volume_m3)).sum ≤ planned :=
  planBlocksGo_bounds o region year quarter 20 0 planned k h

/-- Witness for `plan_harvest_blocks_bounded` at planned volume 10000
under the all-zero oracle. -/
theorem plan_harvest_blocks_bounded_witness :
    (plan_harvest_blocks allZeroOracle "SBS" 2025 1 10000 0).length ≤ 20 ∧
      (∀ b ∈ plan_harvest_blocks allZeroOracle "SBS" 2025 1 10000 0, 0 < b.volume_m3) ∧
      ((plan_harvest_blocks allZeroOracle "SBS" 2025 1 10000 0).map
        (·.volume_m3)).sum ≤ 10000 :=
  plan_harvest_blocks_bounded allZeroOracle "SBS" 2025 1 10000 0 (by norm_num)

/-! ## C5: permit status transitions -/

theorem forall2_statusStep_refl :
    ∀ l : List HarvestBlock,
      List.Forall₂ (fun b b' => statusStep b.permit_status b'.permit_status) l l := by
  intro l
  induction l with
  | nil => exact List.Forall₂.nil
  | cons b l ih => exact List.Forall₂.cons (statusStep.refl _) ih

theorem forall2_statusStep_map (f : HarvestBlock → HarvestBlock)
    (hf : ∀ b, statusStep b.permit_status (f b).permit_status) :
    ∀ l : List HarvestBlock,
      List.Forall₂ (fun b b' => statusStep b.permit_status b'.permit_status) l (l.map f) := by
  intro l
  induction l with
  | nil => exact List.Forall₂.nil
  | cons b l ih => exact List.Forall₂.cons (hf b) ih

theorem processPermitsAux_forall2 (year quarter : ℤ) (pb : ℚ) (ogde : Bool)
    (cd cap : ℚ) (nCert : ℕ) (rand : ℕ → ℚ) :
    ∀ (bs : List HarvestBlock) (rep : ℚ) (k : ℕ),
      List.Forall₂ (fun b b' => statusStep b.permit_status b'.permit_status)
        bs (processPermitsAux year quarter pb ogde cd cap nCert rand bs rep k).1 := by
  intro bs
  induction bs with
  | nil => intro rep k; exact List.Forall₂.nil
  | cons b bs ih =>
    intro rep k
    by_cases hdue : permitDue year quarter b
    · simp only [processPermitsAux, if_pos hdue]
      by_cases hroll : rand k < approvalChance pb ogde cd cap nCert rep b
      · rw [if_pos hroll]
        exact List.Forall₂.cons (by rw [hdue.1]; exact statusStep.approve) (ih rep (k + 1))
      · rw [if_neg hroll]
        exact List.Forall₂.cons (by rw [hdue.1]; exact statusStep.deny) (ih (rep - 5/100) (k + 1))
    · simp only [processPermitsAux, if_neg hdue]
      exact List.Forall₂.cons (statusStep.refl _) (ih rep k)

theorem applySubmissions_status (o : Oracle) (year backlog : ℤ) :
    ∀ (sel : List ℕ) (bs : List HarvestBlock) (k : ℕ),
      (applySubmissions o year backlog sel bs k).1.map (·.permit_status) =
        bs.map (·.permit_status) := by
  intro sel
  induction sel with
  | nil => intro bs k; rfl
  | cons i rest ih =>
    intro bs k
    simp only [applySubmissions]
    rw [ih]
    exact map_updateAt_of_proj_eq (fun b => b.permit_status)
      (submitUpdate year backlog (pyRandint (-30) 60 (o.nat k))) (fun a => rfl) bs i

theorem applySubmissions_getD_ne (o : Oracle) (year backlog : ℤ) :
    ∀ (sel : List ℕ) (bs : List HarvestBlock) (k j : ℕ), j ∉ sel →
      (applySubmissions o year backlog sel bs k).1.getD j default =
        bs.getD j default := by
  intro sel
  induction sel with
  | nil => intro bs k j _; rfl
  | cons i rest ih =>
    intro bs k j hj
    simp only [applySubmissions]
    rw [ih _ _ _ (fun h => hj (List.mem_cons_of_mem i h))]
    exact getD_updateAt_ne _ _ _ _ _ (fun h => hj (h ▸ List.mem_cons_self i rest))

theorem getD_mem {α : Type} :
    ∀ (l : List α) (n : ℕ) (d : α), n < l.length → l.getD n d ∈ l := by
  intro l
  induction l with
  | nil => intro n d h; simp at h
  | cons a l ih =>
    intro n d h
    cases n with
    | zero => exact List.mem_cons_self a l
    | succ m =>
      simp only [List.getD_cons_succ]
      exact List.mem_cons_of_mem a (ih m d (by simpa using h))

theorem selectedIdx_mem_pending (s : GameState) (choice : ℕ) (parseOk : Bool)
    (idxs : List ℤ) (sel : List ℕ) (hsel : selectedIdx s choice parseOk idxs = some sel) :
    ∀ x ∈ sel, x ∈ pendingIdx s := by
  unfold selectedIdx at hsel
  dsimp only at hsel
  by_cases h0 : choice = 0
  · rw [if_pos h0] at hsel
    cases hsel
    exact fun x hx => hx
  · rw [if_neg h0] at hsel
    by_cases h1 : choice = 1
    · rw [if_pos h1] at hsel
      by_cases hne : (pendingIdx s).filter
          (fun i => decide (3 ≤ (s.harvest_blocks.getD i default).priority)) = []
      · rw [if_pos hne] at hsel; cases hsel
      · rw [if_neg hne] at hsel
        cases hsel
        exact fun x hx => List.mem_of_mem_filter hx
    · rw [if_neg h1] at hsel
      by_cases h2 : choice = 2
      · rw [if_pos h2] at hsel
        by_cases hne : (pendingIdx s).filter
            (fun i => decide (riskScore (s.harvest_blocks.getD i default) ≤ 2)) = []
        · rw [if_pos hne] at hsel; cases hsel
        · rw [if_neg hne] at hsel
          cases hsel
          exact fun x hx => List.mem_of_mem_filter hx
      · rw [if_neg h2] at hsel
        by_cases h3 : choice = 3
        · rw [if_pos h3] at hsel
          by_cases hp : parseOk = true
          · rw [if_pos hp] at hsel
            cases hsel
            intro x hx
            rcases List.mem_map.mp hx with ⟨i, hi, rfl⟩
            have hcond := (List.mem_filter.mp hi).2
            simp only [Bool.and_eq_true, decide_eq_true_eq] at hcond
            exact getD_mem _ _ _ (by omega)
          · rw [if_neg hp] at hsel; cases hsel
        · rw [if_neg h3] at hsel; cases hsel

theorem pendingIdx_status (s : GameState) (x : ℕ) (hx : x ∈ pendingIdx s) :
    (s.harvest_blocks.getD x default).permit_status = .pending := by
  have := (List.mem_filter.mp hx).2
  simpa using this

theorem tlc_forall2 (o : Oracle) (s : GameState) (k i : ℕ) :
    List.Forall₂ (fun b b' => statusStep b.permit_status b'.permit_status)
      s.harvest_blocks (trigger_legal_challenge o s k i).1.harvest_blocks := by
  unfold trigger_legal_challenge
  dsimp only
  split_ifs with hwin
  · exact forall2_statusStep_refl _
  · refine forall2_statusStep_map _ ?_ _
    intro b
    by_cases hb : b.permit_status = PermitStatus.approved
    · rw [if_pos hb, hb]
      exact statusStep.delay
    · rw [if_neg hb]
      exact statusStep.refl _

/-- C5 counterexample: the legal-challenge loss branch moves a
currently-approved block to `delayed`, so an approved block IS moved to
another status by an operation, contrary to the claim. -/
theorem legal_challenge_delays_approved_ex :
    (challengedState.harvest_blocks.getD 0 default).permit_status = .approved ∧
      ((trigger_legal_challenge loseOracle challengedState 0 0).1.harvest_blocks.getD 0
        default).permit_status = .delayed := by
  refine ⟨rfl, ?_⟩
  norm_num [trigger_legal_challenge, challengedState, loseOracle, overdueNation,
    approvedBlock, getFn, updateFn, updateAt, pyRandint]

/-- C5 (amended): permit statuses only step forward — `process_permits`
moves pending blocks to approved or denied and touches nothing else;
submission never changes a status and leaves every non-pending block
entirely unchanged (only pending blocks are eligible); and the
legal-challenge loss branch additionally moves approved blocks to
delayed (the one transition the original claim excluded). -/
theorem permit_status_forward_transitions (o : Oracle) (s : GameState) (k : ℕ)
    (choice : ℕ) (parseOk : Bool) (idxs : List ℤ) (confirm : ℕ)
    (rand : ℕ → ℚ) (i : ℕ) :
    List.Forall₂ (fun b b' => statusStep b.permit_status b'.permit_status)
        s.harvest_blocks (process_permits s rand).harvest_blocks ∧
      (selective_permit_submission o s k choice parseOk idxs confirm).harvest_blocks.map
          (·.permit_status) = s.harvest_blocks.map (·.permit_status) ∧
      (∀ j, (s.harvest_blocks.getD j default).permit_status ≠ .pending →
        (selective_permit_submission o s k choice parseOk idxs
            confirm).harvest_blocks.getD j default = s.harvest_blocks.getD j default) ∧
      List.Forall₂ (fun b b' => statusStep b.permit_status b'.permit_status)
        s.harvest_blocks (trigger_legal_challenge o s k i).1.harvest_blocks := by
  have hsub : selective_permit_submission o s k choice parseOk idxs confirm = s ∨
      ∃ sel, selectedIdx s choice parseOk idxs = some sel ∧
        (selective_permit_submission o s k choice parseOk idxs confirm).harvest_blocks =
          (applySubmissions o s.year s.permit_backlog_days sel s.harvest_blocks k).1 := by
    unfold selective_permit_submission
    by_cases hpend : pendingIdx s = []
    · rw [if_pos hpend]; exact Or.inl rfl
    · rw [if_neg hpend]
      cases hsel : selectedIdx s choice parseOk idxs with
      | none => exact Or.inl rfl
      | some sel =>
        dsimp only
        by_cases hnil : sel = []
        · rw [if_pos hnil]; exact Or.inl rfl
        · rw [if_neg hnil]
          by_cases hcost : s.budget < submissionCost s sel
          · rw [if_pos hcost]; exact Or.inl rfl
          · rw [if_neg hcost]
            by_cases hconf : confirm = 0
            · rw [if_pos hconf]
              exact Or.inr ⟨sel, rfl, rfl⟩
            · rw [if_neg hconf]; exact Or.inl rfl
  refine ⟨?_, ?_, ?_, tlc_forall2 o s k i⟩
  · unfold process_permits
    exact processPermitsAux_forall2 _ _ _ _ _ _ _ _ _ _ _
  · rcases hsub with h | ⟨sel, _, hblocks⟩
    · rw [h]
    · rw [hblocks, applySubmissions_status]
  · intro j hj
    rcases hsub with h | ⟨sel, hsel, hblocks⟩
    · rw [h]
    · rw [hblocks]
      refine applySubmissions_getD_ne _ _ _ _ _ _ _ (fun hmem => ?_)
      exact hj (pendingIdx_status s j (selectedIdx_mem_pending s choice parseOk idxs sel hsel j hmem))

/-- Witness for `permit_status_forward_transitions` at the concrete
approved-block state, with the non-pending immutability conjunct
discharged at block position 0. -/
theorem permit_status_forward_transitions_witness :
    List.Forall₂ (fun b b' => statusStep b.permit_status b'.permit_status)
        challengedState.harvest_blocks
        (process_permits challengedState (fun _ => 1/2)).harvest_blocks ∧
      (selective_permit_submission loseOracle challengedState 0 0 true [] 0).harvest_blocks.getD
          0 default = challengedState.harvest_blocks.getD 0 default ∧
      List.Forall₂ (fun b b' => statusStep b.permit_status b'.permit_status)
        challengedState.harvest_blocks
        (trigger_legal_challenge loseOracle challengedState 0 0).1.harvest_blocks :=
  ⟨(permit_status_forward_transitions loseOracle challengedState 0 0 true [] 0
      (fun _ => 1/2) 0).1,
   (permit_status_forward_transitions loseOracle challengedState 0 0 true [] 0
      (fun _ => 1/2) 0).2.2.1 0 (by decide),
   (permit_status_forward_transitions loseOracle challengedState 0 0 true [] 0
      (fun _ => 1/2) 0).2.2.2⟩

/-! ## C6: consultation clock -/

theorem updateAt_of_le {α : Type} (g : α → α) :
    ∀ (l : List α) (i : ℕ), l.length ≤ i → updateAt l i g = l := by
  intro l
  induction l with
  | nil => intro i _; rfl
  | cons a l ih =>
    intro i h
    cases i with
    | zero => simp at h
    | succ n =>
      simp only [updateAt]
      rw [ih n (by simpa using h)]

theorem updateFn_length (s : GameState) (i : ℕ) (g : FirstNation → FirstNation) :
    (updateFn s i g).first_nations.length = s.first_nations.length :=
  length_updateAt _ _ _

theorem getClock_updateFn_of_preserve (s : GameState) (i : ℕ)
    (g : FirstNation → FirstNation)
    (hg : ∀ fn, (g fn).last_consultation_year = fn.last_consultation_year) (j : ℕ) :
    getClock (updateFn s i g) j = getClock s j := by
  unfold getClock updateFn
  dsimp only
  by_cases hj : j = i
  · subst hj
    by_cases hi : j < s.first_nations.length
    · rw [getD_updateAt_self _ _ _ _ hi, hg]
    · rw [updateAt_of_le _ _ _ (le_of_not_lt hi)]
  · rw [getD_updateAt_ne _ _ _ _ _ hj]

theorem getClock_updateFn_ne (s : GameState) (i : ℕ) (g : FirstNation → FirstNation)
    (j : ℕ) (hj : j ≠ i) :
    getClock (updateFn s i g) j = getClock s j := by
  unfold getClock updateFn
  dsimp only
  rw [getD_updateAt_ne _ _ _ _ _ hj]

theorem getClock_updateFn_self (s : GameState) (i : ℕ) (g : FirstNation → FirstNation)
    (hi : i < s.first_nations.length) :
    getClock (updateFn s i g) i =
      (g (s.first_nations.getD i default)).last_consultation_year := by
  unfold getClock updateFn
  dsimp only
  rw [getD_updateAt_self _ _ _ _ hi]

theorem clock_updateAt_preserve (l : List FirstNation) (i : ℕ)
    (g : FirstNation → FirstNation)
    (hg : ∀ fn, (g fn).last_consultation_year = fn.last_consultation_year) (j : ℕ) :
    ((updateAt l i g).getD j default).last_consultation_year =
      (l.getD j default).last_consultation_year := by
  by_cases hj : j = i
  · subst hj
    by_cases hlt : j < l.length
    · rw [getD_updateAt_self _ _ _ _ hlt, hg]
    · rw [updateAt_of_le _ _ _ (le_of_not_lt hlt)]
  · rw [getD_updateAt_ne _ _ _ _ _ hj]

theorem clock_updateAt_ne (l : List FirstNation) (i : ℕ)
    (g : FirstNation → FirstNation) (j : ℕ) (hj : j ≠ i) :
    ((updateAt l i g).getD j default).last_consultation_year =
      (l.getD j default).last_consultation_year := by
  rw [getD_updateAt_ne _ _ _ _ _ hj]

theorem clock_updateAt_self (l : List FirstNation) (i : ℕ)
    (g : FirstNation → FirstNation) (hlt : i < l.length) :
    ((updateAt l i g).getD i default).last_consultation_year =
      (g (l.getD i default)).last_consultation_year := by
  rw [getD_updateAt_self _ _ _ _ hlt]

theorem tlc_preserves (o : Oracle) (s : GameState) (k i : ℕ) :
    (∀ j, getClock (trigger_legal_challenge o s k i).1 j = getClock s j) ∧
      (trigger_legal_challenge o s k i).1.year = s.year ∧
      (trigger_legal_challenge o s k i).1.first_nations.length =
        s.first_nations.length := by
  unfold trigger_legal_challenge
  dsimp only
  split_ifs with hwin
  · exact ⟨fun j => clock_updateAt_preserve _ _ _ (by intro fn; rfl) j, rfl,
      length_updateAt _ _ _⟩
  · exact ⟨fun j => clock_updateAt_preserve _ _ _ (by intro fn; rfl) j, rfl,
      length_updateAt _ _ _⟩

theorem treaty_preserves (o : Oracle) (s : GameState) (k i : ℕ) :
    (∀ j, getClock (trigger_treaty_negotiations o s k i).1 j = getClock s j) ∧
      (trigger_treaty_negotiations o s k i).1.year = s.year ∧
      (trigger_treaty_negotiations o s k i).1.first_nations.length =
        s.first_nations.length := by
  unfold trigger_treaty_negotiations
  dsimp only
  split_ifs with h0 hb0 h1 hb1 hroll
  · exact ⟨fun j => clock_updateAt_preserve _ _ _ (by intro fn; rfl) j, rfl,
      length_updateAt _ _ _⟩
  · exact ⟨fun j => clock_updateAt_preserve _ _ _ (by intro fn; rfl) j, rfl,
      length_updateAt _ _ _⟩
  · refine ⟨fun j => ?_, rfl, ?_⟩
    · exact (clock_updateAt_preserve _ _ _ (by intro fn; rfl) j).trans
        (clock_updateAt_preserve _ _ _ (by intro fn; rfl) j)
    · exact (length_updateAt _ _ _).trans (length_updateAt _ _ _)
  · refine ⟨fun j => ?_, ?_, ?_⟩
    · exact ((tlc_preserves o _ (k + 2) i).1 j).trans
        (clock_updateAt_preserve _ _ _ (by intro fn; rfl) j)
    · exact (tlc_preserves o _ (k + 2) i).2.1
    · exact ((tlc_preserves o _ (k + 2) i).2.2).trans (length_updateAt _ _ _)
  · exact ⟨fun j => clock_updateAt_preserve _ _ _ (by intro fn; rfl) j, rfl,
      length_updateAt _ _ _⟩
  · refine ⟨fun j => ?_, ?_, ?_⟩
    · exact ((tlc_preserves o _ (k + 1) i).1 j).trans
        (clock_updateAt_preserve _ _ _ (by intro fn; rfl) j)
    · exact (tlc_preserves o _ (k + 1) i).2.1
    · exact ((tlc_preserves o _ (k + 1) i).2.2).trans (length_updateAt _ _ _)

theorem comprehensiveStep_preserves (o : Oracle) (p : GameState × ℕ) (i : ℕ) :
    ((comprehensiveStep o p i).1.year = p.1.year ∧
      (comprehensiveStep o p i).1.first_nations.length = p.1.first_nations.length) ∧
      (∀ j, j ≠ i → getClock (comprehensiveStep o p i).1 j = getClock p.1 j) ∧
      (i < p.1.first_nations.length →
        getClock (comprehensiveStep o p i).1 i = p.1.year) := by
  unfold comprehensiveStep
  dsimp only
  split_ifs with ht hover
  · refine ⟨⟨?_, ?_⟩, fun j hj => ?_, fun hi => ?_⟩
    · exact (treaty_preserves o _ p.2 i).2.1
    · exact ((treaty_preserves o _ p.2 i).2.2).trans
        ((length_updateAt _ _ _).trans (length_updateAt _ _ _))
    · exact ((treaty_preserves o _ p.2 i).1 j).trans
        ((clock_updateAt_ne _ _ _ _ hj).trans (clock_updateAt_ne _ _ _ _ hj))
    · exact ((treaty_preserves o _ p.2 i).1 i).trans
        ((clock_updateAt_preserve _ _ _ (by intro fn; rfl) i).trans
          (clock_updateAt_self _ _ _ hi))
  · refine ⟨⟨rfl, (length_updateAt _ _ _).trans (length_updateAt _ _ _)⟩,
      fun j hj => ?_, fun hi => ?_⟩
    · exact (clock_updateAt_ne _ _ _ _ hj).trans (clock_updateAt_ne _ _ _ _ hj)
    · exact (clock_updateAt_preserve _ _ _ (by intro fn; rfl) i).trans
        (clock_updateAt_self _ _ _ hi)
  · refine ⟨⟨rfl, (length_updateAt _ _ _).trans (length_updateAt _ _ _)⟩,
      fun j hj => ?_, fun hi => ?_⟩
    · exact (clock_updateAt_ne _ _ _ _ hj).trans (clock_updateAt_ne _ _ _ _ hj)
    · exact (clock_updateAt_preserve _ _ _ (by intro fn; rfl) i).trans
        (clock_updateAt_self _ _ _ hi)

theorem individualStep_preserves (o : Oracle) (p : GameState × ℕ) (i : ℕ) :
    ((individualStep o p i).1.year = p.1.year ∧
      (individualStep o p i).1.first_nations.length = p.1.first_nations.length) ∧
      (∀ j, j ≠ i → getClock (individualStep o p i).1 j = getClock p.1 j) ∧
      (i < p.1.first_nations.length →
        getClock (individualStep o p i).1 i = p.1.year) := by
  unfold individualStep
  dsimp only
  split_ifs with hroll hagr
  · refine ⟨⟨rfl, (length_updateAt _ _ _).trans (length_updateAt _ _ _)⟩,
      fun j hj => ?_, fun hi => ?_⟩
    · exact (clock_updateAt_ne _ _ _ _ hj).trans (clock_updateAt_ne _ _ _ _ hj)
    · exact (clock_updateAt_preserve _ _ _ (by intro fn; rfl) i).trans
        (clock_updateAt_self _ _ _ hi)
  · refine ⟨⟨rfl, length_updateAt _ _ _⟩, fun j hj => ?_, fun hi => ?_⟩
    · exact clock_updateAt_ne _ _ _ _ hj
    · exact clock_updateAt_self _ _ _ hi
  · refine ⟨⟨rfl, (length_updateAt _ _ _).trans (length_updateAt _ _ _)⟩,
      fun j hj => ?_, fun hi => ?_⟩
    · exact (clock_updateAt_ne _ _ _ _ hj).trans (clock_updateAt_ne _ _ _ _ hj)
    · exact (clock_updateAt_preserve _ _ _ (by intro fn; rfl) i).trans
        (clock_updateAt_self _ _ _ hi)

theorem minimalStep_preserves (o : Oracle) (p : GameState × ℕ) (i : ℕ) :
    ((minimalStep o p i).1.year = p.1.year ∧
      (minimalStep o p i).1.first_nations.length = p.1.first_nations.length) ∧
      (∀ j, j ≠ i → getClock (minimalStep o p i).1 j = getClock p.1 j) ∧
      (i < p.1.first_nations.length →
        getClock (minimalStep o p i).1 i = p.1.year) := by
  unfold minimalStep
  dsimp only
  split_ifs with ht hroll
  · refine ⟨⟨?_, ?_⟩, fun j hj => ?_, fun hi => ?_⟩
    · exact (tlc_preserves o _ (p.2 + 1) i).2.1
    · exact ((tlc_preserves o _ (p.2 + 1) i).2.2).trans
        ((length_updateAt _ _ _).trans (length_updateAt _ _ _))
    · exact ((tlc_preserves o _ (p.2 + 1) i).1 j).trans
        ((clock_updateAt_ne _ _ _ _ hj).trans (clock_updateAt_ne _ _ _ _ hj))
    · exact ((tlc_preserves o _ (p.2 + 1) i).1 i).trans
        ((clock_updateAt_preserve _ _ _ (by intro fn; rfl) i).trans
          (clock_updateAt_self _ _ _ hi))
  · refine ⟨⟨rfl, (length_updateAt _ _ _).trans (length_updateAt _ _ _)⟩,
      fun j hj => ?_, fun hi => ?_⟩
    · exact (clock_updateAt_ne _ _ _ _ hj).trans (clock_updateAt_ne _ _ _ _ hj)
    · exact (clock_updateAt_preserve _ _ _ (by intro fn; rfl) i).trans
        (clock_updateAt_self _ _ _ hi)
  · refine ⟨⟨rfl, length_updateAt _ _ _⟩, fun j hj => ?_, fun hi => ?_⟩
    · exact clock_updateAt_ne _ _ _ _ hj
    · exact clock_updateAt_self _ _ _ hi

theorem delayStep_preserves_clock (o : Oracle) (p : GameState × ℕ) (i j : ℕ) :
    getClock (delayStep o p i).1 j = getClock p.1 j := by
  unfold delayStep
  dsimp only
  split_ifs with ht
  · exact ((tlc_preserves o _ p.2 i).1 j).trans
      (clock_updateAt_preserve _ _ _ (by intro fn; rfl) j)
  · exact clock_updateAt_preserve _ _ _ (by intro fn; rfl) j

theorem foldl_clock_preserve (f : GameState × ℕ → ℕ → GameState × ℕ)
    (hf : ∀ p i j, getClock (f p i).1 j = getClock p.1 j) :
    ∀ (idxs : List ℕ) (p : GameState × ℕ) (j : ℕ),
      getClock (idxs.foldl f p).1 j = getClock p.1 j := by
  intro idxs
  induction idxs with
  | nil => intro p j; rfl
  | cons a rest ih =>
    intro p j
    simp only [List.foldl_cons]
    rw [ih (f p a) j, hf p a j]

theorem foldl_clock_preserve_of_ne (f : GameState × ℕ → ℕ → GameState × ℕ)
    (hf : ∀ p i j, j ≠ i → getClock (f p i).1 j = getClock p.1 j) :
    ∀ (idxs : List ℕ) (p : GameState × ℕ) (j : ℕ), j ∉ idxs →
      getClock (idxs.foldl f p).1 j = getClock p.1 j := by
  intro idxs
  induction idxs with
  | nil => intro p j _; rfl
  | cons a rest ih =>
    intro p j hj
    simp only [List.foldl_cons]
    rw [ih (f p a) j (fun h => hj (List.mem_cons_of_mem a h)),
      hf p a j (fun h => hj (h ▸ List.mem_cons_self a rest))]

theorem foldl_clock_set (f : GameState × ℕ → ℕ → GameState × ℕ)
    (hyear : ∀ p i, (f p i).1.year = p.1.year)
    (hlen : ∀ p i, (f p i).1.first_nations.length = p.1.first_nations.length)
    (hne : ∀ p i j, j ≠ i → getClock (f p i).1 j = getClock p.1 j)
    (hset : ∀ p i, i < p.1.first_nations.length → getClock (f p i).1 i = p.1.year) :
    ∀ (idxs : List ℕ) (p : GameState × ℕ),
      (∀ i ∈ idxs, i < p.1.first_nations.length) →
      ∀ i ∈ idxs, getClock (idxs.foldl f p).1 i = p.1.year := by
  intro idxs
  induction idxs with
  | nil => intro p _ i hi; simp at hi
  | cons a rest ih =>
    intro p hb i hi
    simp only [List.foldl_cons]
    rcases List.mem_cons.mp hi with rfl | hmem
    · by_cases hrest : i ∈ rest
      · rw [ih (f p i) (fun x hx => by
          rw [hlen]; exact hb x (List.mem_cons_of_mem i hx)) i hrest, hyear]
      · rw [foldl_clock_preserve_of_ne f hne rest (f p i) i hrest,
          hset p i (hb i (List.mem_cons_self i rest))]
    · rw [ih (f p a) (fun x hx => by
        rw [hlen]; exact hb x (List.mem_cons_of_mem a hx)) i hmem, hyear]

theorem needingIdx_lt (s : GameState) :
    ∀ i ∈ needingIdx s, i < s.first_nations.length := by
  intro i hi
  exact List.mem_range.mp (List.mem_of_mem_filter hi)

/-- C6 counterexample: under the delay approach the consultation clock
is NOT reset: an overdue nation (last consulted 2020, year 2025) keeps
`last_consultation_year = 2020` after the consultation operation,
contrary to the claim that all four approaches reset it. -/
theorem delay_keeps_consultation_clock_ex :
    (brokeState.first_nations.getD 0 default).needs_consultation brokeState.year = true ∧
      brokeState.year = 2025 ∧
      getClock (ongoing_first_nations_consultation delayOracle brokeState 0) 0 = 2020 := by
  refine ⟨rfl, rfl, ?_⟩
  rfl

/-- C6 (amended): the comprehensive, individual and minimal-notice
approaches set `last_consultation_year` to the current year for every
addressed nation (the two paid ones when affordable); the delay approach
leaves every nation's consultation clock unchanged. -/
theorem consultation_clock_reset_except_delay (o : Oracle) (s : GameState) (k : ℕ) :
    (o.sel k = 0 →
      ¬ s.budget < ((needingIdx s).map (fun i => (getFn s i).consultation_cost * 2)).sum →
      ∀ i ∈ needingIdx s,
        getClock (ongoing_first_nations_consultation o s k) i = s.year) ∧
    (o.sel k = 1 →
      ¬ s.budget < ((needingIdx s).map (fun i => (getFn s i).consultation_cost)).sum →
      ∀ i ∈ needingIdx s,
        getClock (ongoing_first_nations_consultation o s k) i = s.year) ∧
    (o.sel k = 2 →
      ∀ i ∈ needingIdx s,
        getClock (ongoing_first_nations_consultation o s k) i = s.year) ∧
    (o.sel k ≠ 0 → o.sel k ≠ 1 → o.sel k ≠ 2 →
      ∀ j, getClock (ongoing_first_nations_consultation o s k) j = getClock s j) := by
  by_cases hneed : needingIdx s = []
  · refine ⟨?_, ?_, ?_, ?_⟩
    · intro _ _ i hi
      rw [hneed] at hi
      simp at hi
    · intro _ _ i hi
      rw [hneed] at hi
      simp at hi
    · intro _ i hi
      rw [hneed] at hi
      simp at hi
    · intro _ _ _ j
      unfold ongoing_first_nations_consultation
      rw [if_pos hneed]
  · refine ⟨?_, ?_, ?_, ?_⟩
    · intro hc hcost i hi
      unfold ongoing_first_nations_consultation
      dsimp only
      rw [if_neg hneed, if_pos hc, if_neg hcost]
      exact foldl_clock_set (comprehensiveStep o)
        (fun p i => ((comprehensiveStep_preserves o p i).1).1)
        (fun p i => ((comprehensiveStep_preserves o p i).1).2)
        (fun p i j hj => (comprehensiveStep_preserves o p i).2.1 j hj)
        (fun p i hlt => (comprehensiveStep_preserves o p i).2.2 hlt)
        (needingIdx s) _ (fun x hx => needingIdx_lt s x hx) i hi
    · intro hc hcost i hi
      unfold ongoing_first_nations_consultation
      dsimp only
      rw [if_neg hneed, if_neg (by simp [hc]), if_pos hc, if_neg hcost]
      exact foldl_clock_set (individualStep o)
        (fun p i => ((individualStep_preserves o p i).1).1)
        (fun p i => ((individualStep_preserves o p i).1).2)
        (fun p i j hj => (individualStep_preserves o p i).2.1 j hj)
        (fun p i hlt => (individualStep_preserves o p i).2.2 hlt)
        (needingIdx s) _ (fun x hx => needingIdx_lt s x hx) i hi
    · intro hc i hi
      unfold ongoing_first_nations_consultation
      dsimp only
      rw [if_neg hneed, if_neg (by simp [hc]), if_neg (by simp [hc]), if_pos hc]
      exact foldl_clock_set (minimalStep o)
        (fun p i => ((minimalStep_preserves o p i).1).1)
        (fun p i => ((minimalStep_preserves o p i).1).2)
        (fun p i j hj => (minimalStep_preserves o p i).2.1 j hj)
        (fun p i hlt => (minimalStep_preserves o p i).2.2 hlt)
        (needingIdx s) _ (fun x hx => needingIdx_lt s x hx) i hi
    · intro hc0 hc1 hc2 j
      unfold ongoing_first_nations_consultation
      dsimp only
      rw [if_neg hneed, if_neg (by simp [hc0]), if_neg (by simp [hc1]),
        if_neg (by simp [hc2])]
      exact foldl_clock_preserve (delayStep o)
        (fun p i j => delayStep_preserves_clock o p i j) (needingIdx s) _ j

/-- Witness for `consultation_clock_reset_except_delay`: the overdue
nation has its clock reset to 2025 by the comprehensive, individual and
minimal approaches, and kept at its old value by delay. -/
theorem consultation_clock_reset_except_delay_witness :
    getClock (ongoing_first_nations_consultation allZeroOracle consultState 0) 0 =
        consultState.year ∧
      getClock (ongoing_first_nations_consultation allOneOracle consultState 0) 0 =
        consultState.year ∧
      getClock (ongoing_first_nations_consultation minimalOracle consultState 0) 0 =
        consultState.year ∧
      getClock (ongoing_first_nations_consultation delayOracle consultState 0) 0 =
        getClock consultState 0 :=
  ⟨(consultation_clock_reset_except_delay allZeroOracle consultState 0).1 rfl
      (by norm_num [needingIdx, consultState, overdueNation, getFn,
        FirstNation.needs_consultation, List.range_succ])
      0 (by decide),
   (consultation_clock_reset_except_delay allOneOracle consultState 0).2.1 rfl
      (by norm_num [needingIdx, consultState, overdueNation, getFn,
        FirstNation.needs_consultation, List.range_succ])
      0 (by decide),
   (consultation_clock_reset_except_delay minimalOracle consultState 0).2.2.1 rfl
      0 (by decide),
   (consultation_clock_reset_except_delay delayOracle consultState 0).2.2.2
      (by decide) (by decide) (by decide) 0⟩

end Forest